import Mathlib

/-!
Shallow embedding of the sc-extract repository (Rust) for checking its
natural-language specification.

Each definition below is translated from a named function of the source
tree (src/src/utils.rs, src/src/extractors/tex.rs, src/src/extractors/sc.rs,
src/src/extractors/csv.rs).  Machine integers are modelled as Nat/Int with
explicit truncation (% 2^w) at the places where Rust performs an `as`
cast; Rust panics (out-of-bounds indexing, slice errors) are modelled as
`none`/dedicated constructors; fallible code returns Except/Option.
Definitions whose name matches a Rust item are direct translations of
that item.  Definitions whose name starts with `spec` follow the wording
of the specification document instead and are only used on the
specification side of refinement statements.
-/

namespace ScExtract

/-! ### Byte reader — src/src/utils.rs, struct Reader

The Rust `Reader` wraps a `Cursor<Vec<u8>>` (a byte buffer plus a cursor
position) together with a separately tracked `bytes_left` counter.  We
model it as the buffer (`data`), the cursor position (`pos`) and the
`bytesLeft` counter.  `Reader::new` starts at position 0 with
`bytes_left = buffer length`. -/

structure Reader where
  data : List Nat
  pos : Nat
  bytesLeft : Nat
deriving Repr, DecidableEq

/-- Models `Reader::new` (utils.rs lines 14-18). -/
def Reader.new (data : List Nat) : Reader := ⟨data, 0, data.length⟩

/-- Well-formedness: the `bytes_left` counter agrees with the cursor.
This holds for a fresh reader and is preserved by every read operation
modelled below. -/
def Reader.Wf (r : Reader) : Prop := r.pos + r.bytesLeft = r.data.length

instance (r : Reader) : Decidable r.Wf := by unfold Reader.Wf; infer_instance

/-- All buffer entries are bytes (the Rust buffer is `Vec<u8>`). -/
def Reader.Bytes (r : Reader) : Prop := ∀ b ∈ r.data, b < 256

instance (r : Reader) : Decidable r.Bytes := by unfold Reader.Bytes; infer_instance

/-- Models `Reader::read` (utils.rs lines 26-43).

The Rust code first clamps `bytes_left` (to 0 when `size > bytes_left`,
else subtracting `size`), then allocates `buf = vec![0; size]`.  If the
clamped `bytes_left` is 0 it calls `stream.read_to_end(&mut buf)`, which
APPENDS every remaining stream byte to the zero-filled `buf`; otherwise
it calls `stream.read_exact(&mut buf)`, overwriting `buf` with the next
`size` bytes.  Both unwrap with `unwrap_or_default`, so the call is
total. -/
def Reader.read (r : Reader) (size : Nat) : List Nat × Reader :=
  let bl := if size > r.bytesLeft then 0 else r.bytesLeft - size
  if bl = 0 then
    (List.replicate size 0 ++ r.data.drop r.pos, ⟨r.data, r.data.length, 0⟩)
  else
    ((r.data.drop r.pos).take size, ⟨r.data, r.pos + size, bl⟩)

/-- Models `Reader::read_byte` (utils.rs lines 46-54): clamp `bytes_left`,
then `read_u8` which returns the byte at the cursor, or 0 (via
`unwrap_or_default`) at end of stream. -/
def Reader.read_byte (r : Reader) : Nat × Reader :=
  let bl := if 1 > r.bytesLeft then 0 else r.bytesLeft - 1
  (r.data.getD r.pos 0, ⟨r.data, min (r.pos + 1) r.data.length, bl⟩)

/-- Models `Reader::read_uint16` (utils.rs lines 57-65): clamp
`bytes_left` by 2, then `read_u16::<LittleEndian>`, which returns the
little-endian value of the next two bytes, or 0 (consuming the partial
remainder) when fewer than two bytes are left. -/
def Reader.read_uint16 (r : Reader) : Nat × Reader :=
  let bl := if 2 > r.bytesLeft then 0 else r.bytesLeft - 2
  if r.pos + 2 ≤ r.data.length then
    (r.data.getD r.pos 0 + 256 * r.data.getD (r.pos + 1) 0, ⟨r.data, r.pos + 2, bl⟩)
  else
    (0, ⟨r.data, r.data.length, bl⟩)

theorem Reader.read_wf (r : Reader) (size : Nat) (h : r.Wf) : (r.read size).2.Wf := by
  unfold Reader.Wf at *
  simp only [Reader.read]
  by_cases h1 : (if size > r.bytesLeft then 0 else r.bytesLeft - size) = 0
  · rw [if_pos h1]; simp
  · rw [if_neg h1]
    show r.pos + size + (if size > r.bytesLeft then 0 else r.bytesLeft - size) = r.data.length
    rcases Nat.lt_or_ge r.bytesLeft size with hc | hc
    · exact absurd (if_pos hc) h1
    · rw [if_neg (by omega)]; omega

/-- C1 counterexample input: a fresh reader over three bytes, asked for
three bytes.  The claim predicts the buffer `[1, 2, 3]` of length 3; the
code clamps `bytes_left` to 0 and takes the `read_to_end` path, which
appends the remaining bytes to the zero-filled buffer, returning the
six-byte buffer `[0, 0, 0, 1, 2, 3]`. -/
theorem C1_counterexample :
    ((Reader.new [1, 2, 3]).read 3).1 = [0, 0, 0, 1, 2, 3] ∧
      ((Reader.new [1, 2, 3]).read 3).1.length ≠ 3 ∧
      ((Reader.new [1, 2, 3]).read 3).1 ≠ [1, 2, 3] := by decide

/-- C1 (amended): `Reader::read(n)` never fails; when strictly more than
`n` bytes remain it returns exactly the next `n` bytes of the stream and
decrements the remaining-byte count by `n`; when at most `n` bytes
remain (including the case of exactly `n`), it returns `n` zero bytes
followed by all actually remaining bytes — a buffer of length
`n + remaining`, not of length `n` — and clamps the remaining-byte count
to zero. -/
theorem C1_read_spec (r : Reader) (n : Nat) (hw : r.Wf) :
    (n < r.bytesLeft →
      (r.read n).1 = (r.data.drop r.pos).take n ∧
        (r.read n).1.length = n ∧
        (r.read n).2.bytesLeft = r.bytesLeft - n) ∧
    (r.bytesLeft ≤ n →
      (r.read n).1 = List.replicate n 0 ++ r.data.drop r.pos ∧
        (r.read n).1.length = n + r.bytesLeft ∧
        (r.read n).2.bytesLeft = 0) := by
  unfold Reader.Wf at hw
  constructor
  · intro hlt
    have hbl : (if n > r.bytesLeft then 0 else r.bytesLeft - n) = r.bytesLeft - n := by
      rw [if_neg]; omega
    have hne : ¬ (r.bytesLeft - n = 0) := by omega
    have hread : r.read n =
        ((r.data.drop r.pos).take n, ⟨r.data, r.pos + n, r.bytesLeft - n⟩) := by
      simp [Reader.read, hbl, hne]
    rw [hread]
    refine ⟨rfl, ?_, rfl⟩
    rw [List.length_take, List.length_drop]
    omega
  · intro hle
    have hbl : (if n > r.bytesLeft then 0 else r.bytesLeft - n) = 0 := by
      by_cases hc : n > r.bytesLeft
      · rw [if_pos hc]
      · rw [if_neg hc]; omega
    have hread : r.read n =
        (List.replicate n 0 ++ r.data.drop r.pos, ⟨r.data, r.data.length, 0⟩) := by
      simp [Reader.read, hbl]
    rw [hread]
    refine ⟨rfl, ?_, rfl⟩
    rw [List.length_append, List.length_replicate, List.length_drop]
    omega

/-- Witness for C1_read_spec at concrete inputs: a fresh five-byte
reader read for 2 bytes takes the exact path, and for 5 bytes takes the
zero-prefixed path. -/
theorem C1_read_spec_witness :
    ((Reader.new [1, 2, 3, 4, 5]).read 2).1 = [1, 2] ∧
      ((Reader.new [1, 2, 3, 4, 5]).read 5).1.length = 10 := by
  have h1 := (C1_read_spec (Reader.new [1, 2, 3, 4, 5]) 2 (by decide)).1 (by decide)
  have h2 := (C1_read_spec (Reader.new [1, 2, 3, 4, 5]) 5 (by decide)).2 (by decide)
  exact ⟨by rw [h1.1]; decide, by rw [h2.2.1]; decide⟩

/-! ### SC regions and orientation inference — src/src/extractors/sc.rs

The `Region` struct (sc.rs lines 46-62) also carries sheet_id, sprite
dimensions, zero points and the shape-space bbox; `region_rotation`
(sc.rs lines 644-756) reads and writes only the fields modelled here,
so the remaining fields are modelled in the sections that use them. -/

structure Region where
  numPoints : Nat
  rotation : Nat
  mirroring : Nat
  shapePoints : List (Int × Int)
  sheetPoints : List (Int × Int)
deriving Repr, DecidableEq

/-- Models enum Rotation (sc.rs lines 103-108). -/
inductive Rotation where
  | Same
  | Less
  | More
deriving Repr, DecidableEq, Fintype

/-- Models Rotation::is_same (sc.rs lines 111-117). -/
def Rotation.is_same : Rotation → Bool
  | .Same => true
  | _ => false

/-- Models the match on `Ordering` used for px, qx, qy (sc.rs lines
679-683, 692-702): Greater maps to More, Less to Less, Equal to Same. -/
def cmpRot (a b : Int) : Rotation :=
  if a > b then .More else if a < b then .Less else .Same

/-- Models the inverted match used for py (sc.rs lines 686-690):
Greater maps to Less, Less to More, Equal to Same. -/
def cmpRotInv (a b : Int) : Rotation :=
  if a > b then .Less else if a < b then .More else .Same

/-- Two's-complement wrap into i32, the release-build behavior of
overflowing i32 arithmetic (a debug build panics instead at the same
inputs). -/
def wrap32 (z : Int) : Int := (z + 2 ^ 31) % 2 ^ 32 - 2 ^ 31

/-- Two's-complement wrap into i64. -/
def wrap64 (z : Int) : Int := (z + 2 ^ 63) % 2 ^ 64 - 2 ^ 63

/-- Specification-side shoelace sum, the exact formula of spec §4.6.1
with unbounded integers.  Used only to state the C3 counterexample. -/
def shoelace (pts : List (Int × Int)) (n : Nat) : Int :=
  (List.range n).foldl
    (fun acc z =>
      acc + ((pts.getD ((z + 1) % n) (0, 0)).1 - (pts.getD z (0, 0)).1) *
        ((pts.getD ((z + 1) % n) (0, 0)).2 + (pts.getD z (0, 0)).2)) 0

/-- Models the shoelace sums of region_rotation (sc.rs lines 648-658)
as the release binary computes them: the difference `x1 - x0` and the
sum `y1 + y0` are i32 operations that wrap before the `as i64` casts,
the product of the two casted i32 values cannot overflow i64, and the
`+=` accumulates in i64, wrapping there.  Indices `z` and `(z+1) % n`
are below `n`, which equals the list length whenever the parser built
the region, so `getD` coincides with the panicking Rust index. -/
def shoelace_i32 (pts : List (Int × Int)) (n : Nat) : Int :=
  (List.range n).foldl
    (fun acc z =>
      wrap64 (acc +
        wrap32 ((pts.getD ((z + 1) % n) (0, 0)).1 - (pts.getD z (0, 0)).1) *
          wrap32 ((pts.getD ((z + 1) % n) (0, 0)).2 + (pts.getD z (0, 0)).2))) 0

/-- Models the nested rotation decision chain (sc.rs lines 707-749). -/
def rotationTable (px py qx qy : Rotation) : Nat :=
  if px = qx ∧ py = qy then 0
  else if px.is_same then
    if px = qy then (if py = qx then 90 else 270) else 180
  else if py.is_same then
    if py = qx then (if px = qy then 270 else 90) else 180
  else if px ≠ qx ∧ py ≠ qy then 180
  else if px = py then
    if px ≠ qx then 270 else if py ≠ qy then 90 else 0
  else if px ≠ py then
    if px ≠ qx then 90 else if py ≠ qy then 270 else 0
  else 0

/-- Models region_rotation (sc.rs lines 644-756).  The Rust function
mutates the region; we return the updated region, or `none` where the
Rust code panics with an index out of bounds (the accesses
`sheet_points[1]`, `sheet_points[0]`, `shape_points[1]`,
`shape_points[0]` at lines 679-702 on too-short vectors).  The
mirroring negation loop (lines 669-673) runs over indices
`0..num_points`, which is the whole vector whenever `num_points`
equals its length, as the parser guarantees; the `*= -1` is an i32
multiplication, which wraps at i32::MIN in a release build, hence the
wrap32. -/
def region_rotation (r : Region) : Option Region :=
  let sum_sheet := shoelace_i32 r.sheetPoints r.numPoints
  let sum_shape := shoelace_i32 r.shapePoints r.numPoints
  let sheet_orientation : Int := if sum_sheet < 0 then -1 else 1
  let shape_orientation : Int := if sum_shape < 0 then -1 else 1
  let mirroring : Nat := if shape_orientation = sheet_orientation then 0 else 1
  let shape_points :=
    if mirroring = 1 then r.shapePoints.map (fun p => (wrap32 (-p.1), p.2))
    else r.shapePoints
  match r.sheetPoints.get? 1, r.sheetPoints.get? 0,
      shape_points.get? 1, shape_points.get? 0 with
  | some s1, some s0, some q1, some q0 =>
      let px := cmpRot s1.1 s0.1
      let py := cmpRotInv s1.2 s0.2
      let qx := cmpRot q1.1 q0.1
      let qy := cmpRot q1.2 q0.2
      let rotation := rotationTable px py qx qy
      let rotation :=
        if sheet_orientation = -1 ∧ (rotation = 90 ∨ rotation = 270) then
          (rotation + 180) % 360
        else rotation
      some { r with rotation := rotation, mirroring := mirroring, shapePoints := shape_points }
  | _, _, _, _ => none

/-- Models the degenerate-polygon guard of write_shape (sc.rs lines
515-525): the polygon is the region's sheet points, and the region is
skipped when its first and last vertices are equal.  `none` models the
panic of `polygon[0]` on an empty polygon. -/
def degenerate_polygon_guard (polygon : List (Int × Int)) : Option Bool :=
  match polygon.get? 0, polygon.get? (polygon.length - 1) with
  | some a, some b => some (decide (a = b))
  | _, _ => none

/-! Specification-side definitions for orientation inference,
following the wording of spec.md §4.6.1, amended in one point the
counterexample below forces: the shoelace sums and the in-place x
negation are taken as the program computes them, in wrapping i32/i64
arithmetic, instead of the spec's unbounded integers. -/

/-- Sign of a shoelace sum, with 0 treated as +1 (spec §4.6.1). -/
def specSign (s : Int) : Int := if s < 0 then -1 else 1

/-- Mirroring per spec §4.6.1 (amended): 0 exactly when the two
orientation signs of the i32-wrapping shoelace sums agree. -/
def specMirroring (r : Region) : Nat :=
  if specSign (shoelace_i32 r.sheetPoints r.numPoints) =
      specSign (shoelace_i32 r.shapePoints r.numPoints) then 0
  else 1

/-- Shape points after the in-place x negation mandated when
mirroring is 1 (spec §4.6.1, amended: the negation wraps at
i32::MIN). -/
def specShapePoints (r : Region) : List (Int × Int) :=
  if specMirroring r = 1 then r.shapePoints.map (fun p => (wrap32 (-p.1), p.2))
  else r.shapePoints

/-- Comparison px of spec §4.6.1. -/
def specPx (r : Region) : Rotation :=
  cmpRot (r.sheetPoints.getD 1 (0, 0)).1 (r.sheetPoints.getD 0 (0, 0)).1

/-- Comparison py of spec §4.6.1, with the sheet y comparison
inverted. -/
def specPy (r : Region) : Rotation :=
  cmpRotInv (r.sheetPoints.getD 1 (0, 0)).2 (r.sheetPoints.getD 0 (0, 0)).2

/-- Comparison qx of spec §4.6.1, on the (possibly negated) shape
points. -/
def specQx (r : Region) : Rotation :=
  cmpRot ((specShapePoints r).getD 1 (0, 0)).1 ((specShapePoints r).getD 0 (0, 0)).1

/-- Comparison qy of spec §4.6.1. -/
def specQy (r : Region) : Rotation :=
  cmpRot ((specShapePoints r).getD 1 (0, 0)).2 ((specShapePoints r).getD 0 (0, 0)).2

/-- Decision table of spec §4.6.1, row by row. -/
def specRotationTable (px py qx qy : Rotation) : Nat :=
  if px = qx ∧ py = qy then 0
  else if px = .Same ∧ px = qy ∧ py = qx then 90
  else if px = .Same ∧ px = qy ∧ py ≠ qx then 270
  else if px = .Same ∧ px ≠ qy then 180
  else if py = .Same ∧ py = qx ∧ px = qy then 270
  else if py = .Same ∧ py = qx ∧ px ≠ qy then 90
  else if py = .Same ∧ py ≠ qx then 180
  else if px ≠ .Same ∧ py ≠ .Same ∧ px ≠ qx ∧ py ≠ qy then 180
  else if px ≠ .Same ∧ py ≠ .Same ∧ px = py ∧ px ≠ qx then 270
  else if px ≠ .Same ∧ py ≠ .Same ∧ px = py ∧ py ≠ qy then 90
  else if px ≠ .Same ∧ py ≠ .Same ∧ px ≠ py ∧ px ≠ qx then 90
  else if px ≠ .Same ∧ py ≠ .Same ∧ px ≠ py ∧ py ≠ qy then 270
  else 0

/-- Rotation per spec §4.6.1: the table value, plus 180 mod 360 when
the sheet orientation (of the wrapping shoelace sum) is negative and
the table chose 90 or 270. -/
def specRotation (r : Region) : Nat :=
  let t := specRotationTable (specPx r) (specPy r) (specQx r) (specQy r)
  if specSign (shoelace_i32 r.sheetPoints r.numPoints) = -1 ∧ (t = 90 ∨ t = 270) then
    (t + 180) % 360
  else t

/-- The nested if chain of the code agrees with the decision table of
the spec on all 81 inputs. -/
theorem rotationTable_eq_specRotationTable :
    ∀ px py qx qy, rotationTable px py qx qy = specRotationTable px py qx qy := by decide

/-- Helper: on every region whose point counts are consistent and at
least 2, region_rotation succeeds and returns exactly the
specification's mirroring, negated shape points, and table rotation. -/
theorem region_rotation_eq_spec (r : Region)
    (h1 : r.numPoints = r.shapePoints.length)
    (h2 : r.numPoints = r.sheetPoints.length)
    (hn : 2 ≤ r.numPoints) :
    region_rotation r = some { r with
      mirroring := specMirroring r
      shapePoints := specShapePoints r
      rotation := specRotation r } := by
  obtain ⟨np, rot0, mir0, sp, shp⟩ := r
  simp only at h1 h2 hn
  rcases sp with _ | ⟨p0, sp⟩
  · simp at h1; omega
  rcases sp with _ | ⟨p1, pt⟩
  · simp at h1; omega
  rcases shp with _ | ⟨s0, shp⟩
  · simp at h2; omega
  rcases shp with _ | ⟨s1, st⟩
  · simp at h2; omega
  by_cases hsh : shoelace_i32 (p0 :: p1 :: pt) np < 0 <;>
    by_cases hst : shoelace_i32 (s0 :: s1 :: st) np < 0 <;>
    simp [region_rotation, specMirroring, specShapePoints, specRotation, specPx, specPy,
      specQx, specQy, specSign, hsh, hst, rotationTable_eq_specRotationTable]

/-- C2 counterexample: a tag-0x12 region slot whose sub-tag was not
0x16 keeps its defaults — zero points and empty point vectors
(sc.rs lines 252-259).  write_shape still calls region_rotation on it
(sc.rs line 436), and region_rotation indexes `sheet_points[1]` (line
679), which panics (modelled `none`) instead of completing; the
downstream degenerate-polygon guard is never reached, refuting the
claim that processing completes without error or panic. -/
theorem C2_counterexample : region_rotation ⟨0, 0, 0, [], []⟩ = none := by rfl

/-- C2 (amended): a region actually filled from a 0x16 sub-tag (point
count equal to both vector lengths and at least 2) whose polygon's
first and last sheet vertices are equal is processed without panic:
region_rotation succeeds and the compositor's degenerate-polygon guard
skips the region, so it fails neither the sprite nor the file.  A slot
whose sub-tag was not 0x16, however, keeps zero points, and
region_rotation then panics with an index out of bounds (modelled
`none`) instead of being skipped. -/
theorem C2_degenerate_skip (r : Region)
    (h1 : r.numPoints = r.shapePoints.length)
    (h2 : r.numPoints = r.sheetPoints.length)
    (hn : 2 ≤ r.numPoints)
    (hdeg : r.sheetPoints.get? 0 = r.sheetPoints.get? (r.sheetPoints.length - 1)) :
    (region_rotation r).isSome = true ∧
      degenerate_polygon_guard r.sheetPoints = some true ∧
      ∀ r₀ : Region, r₀.sheetPoints = [] → region_rotation r₀ = none := by
  refine ⟨?_, ?_, ?_⟩
  · rw [region_rotation_eq_spec r h1 h2 hn]; rfl
  · have hlen : 2 ≤ r.sheetPoints.length := h2 ▸ hn
    obtain ⟨a, ha⟩ : ∃ a, r.sheetPoints.get? 0 = some a := by
      cases hsp : r.sheetPoints with
      | nil => rw [hsp] at hlen; simp at hlen
      | cons x l => exact ⟨x, by simp [hsp]⟩
    unfold degenerate_polygon_guard
    rw [← hdeg, ha]
    simp
  · intro r₀ h0
    simp [region_rotation, h0]

/-- Witness for C2_degenerate_skip: a 3-point region whose first and
last sheet vertices coincide. -/
theorem C2_degenerate_skip_witness :
    (region_rotation ⟨3, 0, 0, [(0, 0), (5, 0), (0, 5)], [(1, 1), (4, 1), (1, 1)]⟩).isSome
        = true ∧
      degenerate_polygon_guard [(1, 1), (4, 1), (1, 1)] = some true := by
  have h := C2_degenerate_skip ⟨3, 0, 0, [(0, 0), (5, 0), (0, 5)], [(1, 1), (4, 1), (1, 1)]⟩
    (by decide) (by decide) (by decide) (by decide)
  exact ⟨h.1, h.2.1⟩

/-- C3 counterexample: the claim reads the shoelace sums as the exact
spec §4.6.1 formula, but sc.rs lines 649-657 compute the point
differences and sums in i32 (wrapping in a release build, panicking
in debug) before the `as i64` casts.  For the shape polygon
[(-2^31, 1), (2^31-1, 1), (-2^31, 5)] and a small sheet triangle of
negative orientation, the exact shoelace signs agree (both negative,
so the claim demands mirroring 0), yet the program's wrapped
differences flip the shape sum to +4 and region_rotation sets
mirroring to 1 (and negates the x coordinates). -/
theorem C3_counterexample :
    specSign (shoelace [(-(2 ^ 31), 1), (2 ^ 31 - 1, 1), (-(2 ^ 31), 5)] 3) =
        specSign (shoelace [(0, 0), (2, 0), (2, 2)] 3) ∧
      (region_rotation ⟨3, 0, 0, [(-(2 ^ 31), 1), (2 ^ 31 - 1, 1), (-(2 ^ 31), 5)],
          [(0, 0), (2, 0), (2, 2)]⟩).map Region.mirroring = some 1 := by decide

/-- C3 (amended): for every region with at least 2 points (and
consistent point counts), region_rotation sets mirroring to 0 exactly
when the orientation signs of the sheet and shape shoelace sums agree
(0 treated as +1) — with both sums computed as the program computes
them, the i32 point differences and sums wrapping before the i64
accumulation — negates every shape x in place (wrapping at i32::MIN)
when mirroring is 1, selects rotation from the spec §4.6.1 decision
table applied to the four ternary comparisons of point 1 versus point
0 (sheet y inverted), and adds 180 mod 360 when the sheet orientation
is negative and the selected rotation is 90 or 270.  For i32 inputs
whose sums stay in range — the claim's concrete example among them —
this coincides with the spec's exact formula. -/
theorem C3_orientation_inference (r : Region)
    (h1 : r.numPoints = r.shapePoints.length)
    (h2 : r.numPoints = r.sheetPoints.length)
    (hn : 2 ≤ r.numPoints) :
    region_rotation r = some { r with
      mirroring := specMirroring r
      shapePoints := specShapePoints r
      rotation := specRotation r } :=
  region_rotation_eq_spec r h1 h2 hn

/-- Witness for C3_orientation_inference at the claim's concrete
example: shape_points [(0,0),(10,0),(10,10),(0,10)] with sheet_points
[(0,0),(20,0),(20,20),(0,20)] yields rotation 0 and mirroring 0. -/
theorem C3_orientation_inference_witness :
    (region_rotation
        ⟨4, 0, 0, [(0, 0), (10, 0), (10, 10), (0, 10)],
          [(0, 0), (20, 0), (20, 20), (0, 20)]⟩).map Region.rotation = some 0 ∧
      (region_rotation
        ⟨4, 0, 0, [(0, 0), (10, 0), (10, 10), (0, 10)],
          [(0, 0), (20, 0), (20, 20), (0, 20)]⟩).map Region.mirroring = some 0 := by
  rw [C3_orientation_inference
    ⟨4, 0, 0, [(0, 0), (10, 0), (10, 10), (0, 10)], [(0, 0), (20, 0), (20, 20), (0, 20)]⟩
    (by decide) (by decide) (by decide)]
  exact ⟨by decide, by decide⟩

/-! ### Errors — src/src/error.rs

The Rust variants carry message strings.  The string of UnknownPixel
names the offending subtype (tex.rs lines 73-77); we model that
payload as the subtype itself.  The other payloads are irrelevant to
the claims and are dropped. -/

inductive Error where
  | UnknownPixel (subtype : Nat)
  | DecompressionError
  | IoError
  | Other
deriving Repr, DecidableEq

/-! ### Pixel codec — src/src/extractors/tex.rs, convert_pixel -/

/-- Models convert_pixel (tex.rs lines 21-78).  Each Rust `as u8` cast
is modelled as `% 256`.  The subtype 0/1 indexing `pixel[0..3]` cannot
panic because `Reader::read(4)` always returns at least 4 bytes, so
`getD` coincides with it. -/
def convert_pixel (reader : Reader) (pixel_type : Nat) : Except Error (List Nat × Reader) :=
  match pixel_type with
  | 0 | 1 =>
      let p := reader.read 4
      .ok ([p.1.getD 0 0, p.1.getD 1 0, p.1.getD 2 0, p.1.getD 3 0], p.2)
  | 2 =>
      let p := reader.read_uint16
      .ok ([(((p.1 >>> 12) &&& 0xF) <<< 4) % 256, (((p.1 >>> 8) &&& 0xF) <<< 4) % 256,
            (((p.1 >>> 4) &&& 0xF) <<< 4) % 256, ((p.1 &&& 0xF) <<< 4) % 256], p.2)
  | 3 =>
      let p := reader.read_uint16
      .ok ([(((p.1 >>> 11) &&& 0x1F) <<< 3) % 256, (((p.1 >>> 6) &&& 0x1F) <<< 3) % 256,
            (((p.1 >>> 1) &&& 0x1F) <<< 3) % 256, ((p.1 &&& 0xFF) <<< 7) % 256], p.2)
  | 4 =>
      let p := reader.read_uint16
      .ok ([(((p.1 >>> 11) &&& 0x1F) <<< 3) % 256, (((p.1 >>> 5) &&& 0x3F) <<< 2) % 256,
            ((p.1 &&& 0x1F) <<< 3) % 256, 255], p.2)
  | 6 =>
      let p := reader.read_uint16
      .ok ([(p.1 >>> 8) % 256, (p.1 >>> 8) % 256, (p.1 >>> 8) % 256, (p.1 &&& 0xFF) % 256], p.2)
  | 10 =>
      let p := reader.read_byte
      .ok ([p.1, p.1, p.1, p.1], p.2)
  | s => .error (.UnknownPixel s)

/-! Specification-side pixel formulas, copied from the claim and spec
§4.3 (no truncation except the subtype 3 alpha, which the spec states
is truncated to 8 bits). -/

/-- Spec §4.3 subtypes 0 and 1: the 4 bytes read, as (R,G,B,A). -/
def specRGBA8888 (bytes : List Nat) : List Nat :=
  [bytes.getD 0 0, bytes.getD 1 0, bytes.getD 2 0, bytes.getD 3 0]

/-- Spec §4.3 subtype 2: each nibble of the u16, left-shifted by 4. -/
def specRGBA4444 (p : Nat) : List Nat :=
  [((p >>> 12) &&& 0xF) <<< 4, ((p >>> 8) &&& 0xF) <<< 4,
    ((p >>> 4) &&& 0xF) <<< 4, (p &&& 0xF) <<< 4]

/-- Spec §4.3 subtype 3, with the alpha truncated to 8 bits. -/
def specRGBA5551 (p : Nat) : List Nat :=
  [((p >>> 11) &&& 0x1F) <<< 3, ((p >>> 6) &&& 0x1F) <<< 3,
    ((p >>> 1) &&& 0x1F) <<< 3, ((p &&& 0xFF) <<< 7) % 256]

/-- Spec §4.3 subtype 4, alpha fixed to 255. -/
def specRGB565 (p : Nat) : List Nat :=
  [((p >>> 11) &&& 0x1F) <<< 3, ((p >>> 5) &&& 0x3F) <<< 2, (p &&& 0x1F) <<< 3, 255]

/-- Spec §4.3 subtype 6: (p >> 8) replicated, alpha p & 0xFF. -/
def specLA88 (p : Nat) : List Nat := [p >>> 8, p >>> 8, p >>> 8, p &&& 0xFF]

/-- Spec §4.3 subtype 10: the byte replicated in all four channels. -/
def specA8 (b : Nat) : List Nat := [b, b, b, b]

theorem getD_lt_256 (l : List Nat) (h : ∀ b ∈ l, b < 256) (i : Nat) : l.getD i 0 < 256 := by
  by_cases hi : i < l.length
  · rw [List.getD_eq_getElem l 0 hi]
    exact h _ (List.getElem_mem hi)
  · rw [List.getD_eq_default l 0 (by omega)]
    omega

theorem read_uint16_fst (r : Reader) :
    (r.read_uint16).1 =
      if r.pos + 2 ≤ r.data.length then
        r.data.getD r.pos 0 + 256 * r.data.getD (r.pos + 1) 0
      else 0 := by
  unfold Reader.read_uint16
  by_cases hc : r.pos + 2 ≤ r.data.length
  · rw [if_pos hc, if_pos hc]
  · rw [if_neg hc, if_neg hc]

theorem read_uint16_lt (r : Reader) (hb : r.Bytes) : (r.read_uint16).1 < 65536 := by
  have h0 := getD_lt_256 r.data hb r.pos
  have h1 := getD_lt_256 r.data hb (r.pos + 1)
  rw [read_uint16_fst]
  split <;> omega

/-- C4: the pixel codec is total, and for each recognized subtype the
returned RGBA quad matches the spec §4.3 bit formula exactly on the
value read (4 raw bytes for 0/1, a little-endian u16 for 2/3/4/6, one
byte for 10); every other subtype yields UnknownPixel naming the
subtype.  The Bytes hypothesis says the buffer holds u8 values, as in
Rust. -/
theorem C4_convert_pixel (r : Reader) (s : Nat) (hb : r.Bytes) :
    convert_pixel r 0 = .ok (specRGBA8888 (r.read 4).1, (r.read 4).2) ∧
      convert_pixel r 1 = .ok (specRGBA8888 (r.read 4).1, (r.read 4).2) ∧
      convert_pixel r 2 = .ok (specRGBA4444 (r.read_uint16).1, (r.read_uint16).2) ∧
      convert_pixel r 3 = .ok (specRGBA5551 (r.read_uint16).1, (r.read_uint16).2) ∧
      convert_pixel r 4 = .ok (specRGB565 (r.read_uint16).1, (r.read_uint16).2) ∧
      convert_pixel r 6 = .ok (specLA88 (r.read_uint16).1, (r.read_uint16).2) ∧
      convert_pixel r 10 = .ok (specA8 (r.read_byte).1, (r.read_byte).2) ∧
      (s ≠ 0 → s ≠ 1 → s ≠ 2 → s ≠ 3 → s ≠ 4 → s ≠ 6 → s ≠ 10 →
        convert_pixel r s = .error (.UnknownPixel s)) := by
  have hp := read_uint16_lt r hb
  refine ⟨rfl, rfl, ?_, ?_, ?_, ?_, rfl, ?_⟩
  · have a1 : ((r.read_uint16).1 >>> 12) &&& 15 ≤ 15 := Nat.and_le_right
    have a2 : ((r.read_uint16).1 >>> 8) &&& 15 ≤ 15 := Nat.and_le_right
    have a3 : ((r.read_uint16).1 >>> 4) &&& 15 ≤ 15 := Nat.and_le_right
    have a4 : (r.read_uint16).1 &&& 15 ≤ 15 := Nat.and_le_right
    simp only [convert_pixel, specRGBA4444, Except.ok.injEq, Prod.mk.injEq,
      List.cons.injEq, and_true, Nat.shiftLeft_eq]
    omega
  · have a1 : ((r.read_uint16).1 >>> 11) &&& 31 ≤ 31 := Nat.and_le_right
    have a2 : ((r.read_uint16).1 >>> 6) &&& 31 ≤ 31 := Nat.and_le_right
    have a3 : ((r.read_uint16).1 >>> 1) &&& 31 ≤ 31 := Nat.and_le_right
    simp only [convert_pixel, specRGBA5551, Except.ok.injEq, Prod.mk.injEq,
      List.cons.injEq, and_true, Nat.shiftLeft_eq]
    omega
  · have a1 : ((r.read_uint16).1 >>> 11) &&& 31 ≤ 31 := Nat.and_le_right
    have a2 : ((r.read_uint16).1 >>> 5) &&& 63 ≤ 63 := Nat.and_le_right
    have a3 : (r.read_uint16).1 &&& 31 ≤ 31 := Nat.and_le_right
    simp only [convert_pixel, specRGB565, Except.ok.injEq, Prod.mk.injEq,
      List.cons.injEq, and_true, Nat.shiftLeft_eq]
    omega
  · have a1 : (r.read_uint16).1 &&& 255 ≤ 255 := Nat.and_le_right
    simp only [convert_pixel, specLA88, Except.ok.injEq, Prod.mk.injEq,
      List.cons.injEq, and_true]
    omega
  · intro h0 h1 h2 h3 h4 h6 h10
    unfold convert_pixel
    split
    · exact absurd rfl h0
    · exact absurd rfl h1
    · exact absurd rfl h2
    · exact absurd rfl h3
    · exact absurd rfl h4
    · exact absurd rfl h6
    · exact absurd rfl h10
    · rfl

/-- Witness for C4_convert_pixel: the subtype 4 (RGB565) conjunct at a
concrete two-byte reader holding the little-endian u16 0xCDAB, and the
UnknownPixel conjunct at subtype 5. -/
theorem C4_convert_pixel_witness :
    convert_pixel (Reader.new [171, 205]) 4 = .ok ([200, 180, 88, 255], ⟨[171, 205], 2, 0⟩) ∧
      convert_pixel (Reader.new [171, 205]) 5 = .error (.UnknownPixel 5) := by
  have h := C4_convert_pixel (Reader.new [171, 205]) 5 (by decide)
  constructor
  · rw [h.2.2.2.2.1]
    simp only [Except.ok.injEq, Prod.mk.injEq]
    exact ⟨by decide, by decide⟩
  · exact h.2.2.2.2.2.2.2 (by decide) (by decide) (by decide) (by decide) (by decide)
      (by decide) (by decide)

/-! ### Block de-interleave — src/src/extractors/tex.rs, adjust_pixels -/

/-- Models the computation `(n as f64 / 32.0).ceil() as u32` of
adjust_pixels (tex.rs lines 84-85).  Image dimensions come from u16
reads, and for n < 2^16 the f64 division and ceiling are exact, equal
to the integer (n + 31) / 32. -/
def ceilDiv32 (n : Nat) : Nat := (n + 31) / 32

/-- One block's worth of row (or column) indices: the Rust while loop
(tex.rs lines 89-92 and 99-101) runs an index from b*32 while it is
neither (b+1)*32 nor ≥ bound, i.e. over [b*32, min ((b+1)*32) bound). -/
def blockRange (b bound : Nat) : List Nat :=
  List.range' (b * 32) (min ((b + 1) * 32) bound - b * 32)

/-- Models adjust_pixels (tex.rs lines 81-105) as the list of (x, y)
coordinates written in stream order: for each block row `_h` and block
column `_w` (both row-major over the image), the rows h of the block
with the column w varying fastest.  The i-th entry of this list is
where `put_pixel` stores `pixels[i]`; the index i never runs past the
pixel vector because the list has exactly width*height entries (proved
below) and the decode loop pushed width*height pixels. -/
def adjust_pixels_order (width height : Nat) : List (Nat × Nat) :=
  (List.range (ceilDiv32 height)).flatMap fun bh =>
    (List.range (ceilDiv32 width)).flatMap fun bw =>
      (blockRange bh height).flatMap fun h =>
        (blockRange bw width).map fun w => (w, h)

/-- Models the dispatch condition of process_tex (tex.rs line 189):
the de-interleave runs exactly for file types 27 and 28. -/
def applies_adjust (file_type : Nat) : Bool := file_type == 27 || file_type == 28

/-- Specification-side order, from the wording of spec §4.4.1: blocks
(bx, by) are enumerated row-major over the image; block (bx, by) spans
columns [bx·32, min((bx+1)·32, width)) and rows
[by·32, min((by+1)·32, height)) — truncated at the right and bottom
edges, not padded; within each block the traversal is row-major with x
varying fastest, consuming pixels from the stream in order. -/
def specBlockOrder (width height : Nat) : List (Nat × Nat) :=
  (List.range ((height + 31) / 32)).flatMap fun b =>
    (List.range ((width + 31) / 32)).flatMap fun bx =>
      (List.range' (b * 32) (min ((b + 1) * 32) height - b * 32)).flatMap fun y =>
        (List.range' (bx * 32) (min ((bx + 1) * 32) width - bx * 32)).map fun x => (x, y)

theorem flatMap_blockRange_aux (bound : Nat) :
    ∀ m, m ≤ ceilDiv32 bound →
      (List.range m).flatMap (fun b => blockRange b bound) =
        List.range' 0 (min (m * 32) bound) := by
  intro m
  induction m with
  | zero => intro _; simp
  | succ k ih =>
      intro hm
      have hceil : ceilDiv32 bound = (bound + 31) / 32 := rfl
      have hk32 : k * 32 < bound := by
        rw [hceil] at hm; omega
      rw [List.range_succ, List.flatMap_append, ih (by omega)]
      simp only [List.flatMap_cons, List.flatMap_nil, List.append_nil]
      have h1 : min (k * 32) bound = k * 32 := by omega
      rw [h1]
      unfold blockRange
      have h2 := List.range'_append 0 (k * 32) (min ((k + 1) * 32) bound - k * 32) 1
      simp only [Nat.one_mul, Nat.zero_add] at h2
      rw [h2]
      congr 1
      omega

theorem flatMap_blockRange (bound : Nat) :
    (List.range (ceilDiv32 bound)).flatMap (fun b => blockRange b bound) =
      List.range bound := by
  rw [flatMap_blockRange_aux bound (ceilDiv32 bound) le_rfl, List.range_eq_range']
  congr 1
  unfold ceilDiv32
  omega

theorem pairs_length {α : Type} (rows cols : List α) :
    (rows.flatMap fun y => cols.map fun x => (x, y)).length = rows.length * cols.length := by
  induction rows with
  | nil => simp
  | cons a t ih => simp [ih]; ring

theorem row_block_length (fa L2 : List Nat) (g : Nat → List Nat) :
    ((L2.flatMap fun b => fa.flatMap fun y => (g b).map fun x => (x, y))).length =
      fa.length * (L2.flatMap g).length := by
  induction L2 with
  | nil => simp
  | cons b t2 ih2 =>
      simp only [List.flatMap_cons, List.length_append, ih2, pairs_length]
      ring

theorem nested_length (L1 L2 : List Nat) (f g : Nat → List Nat) :
    ((L1.flatMap fun a => L2.flatMap fun b =>
        (f a).flatMap fun y => (g b).map fun x => (x, y))).length =
      (L1.flatMap f).length * (L2.flatMap g).length := by
  induction L1 with
  | nil => simp
  | cons a t ih =>
      simp only [List.flatMap_cons, List.length_append, ih, row_block_length]
      ring

/-- C5: the de-interleave writes the i-th stream pixel to the i-th
coordinate of the spec §4.4.1 block order (blocks row-major, inner
rows with x fastest, edge blocks truncated to the image bounds); it
consumes exactly width·height pixels in total, every written
coordinate is inside the image, every image coordinate is written, and
process_tex applies the rewrite exactly for file types 27 and 28. -/
theorem C5_adjust_pixels (w h : Nat) :
    adjust_pixels_order w h = specBlockOrder w h ∧
      (adjust_pixels_order w h).length = w * h ∧
      (∀ p ∈ adjust_pixels_order w h, p.1 < w ∧ p.2 < h) ∧
      (∀ x y, x < w → y < h → (x, y) ∈ adjust_pixels_order w h) ∧
      applies_adjust 27 = true ∧ applies_adjust 28 = true ∧
      (∀ t, t ≠ 27 → t ≠ 28 → applies_adjust t = false) := by
  refine ⟨rfl, ?_, ?_, ?_, rfl, rfl, ?_⟩
  · unfold adjust_pixels_order
    rw [nested_length (List.range (ceilDiv32 h)) (List.range (ceilDiv32 w))
      (fun b => blockRange b h) (fun b => blockRange b w),
      flatMap_blockRange, flatMap_blockRange]
    simp [Nat.mul_comm]
  · intro p hp
    unfold adjust_pixels_order blockRange at hp
    simp only [List.mem_flatMap, List.mem_map, List.mem_range, List.mem_range'_1] at hp
    obtain ⟨bh, hbh, bw, hbw, y, hy, x, hx, rfl⟩ := hp
    constructor
    · simp only
      omega
    · simp only
      omega
  · intro x y hx hy
    unfold adjust_pixels_order blockRange
    simp only [List.mem_flatMap, List.mem_map, List.mem_range, List.mem_range'_1]
    refine ⟨y / 32, ?_, x / 32, ?_, y, ⟨?_, ?_⟩, x, ⟨?_, ?_⟩, rfl⟩ <;>
      first
        | (unfold ceilDiv32; omega)
        | omega
  · intro t h27 h28
    simp [applies_adjust, h27, h28]

/-- Witness for C5_adjust_pixels at a 33×5 image (two block columns,
the right one truncated): the order has 165 entries and covers the
corner pixel (32, 4). -/
theorem C5_adjust_pixels_witness :
    (adjust_pixels_order 33 5).length = 33 * 5 ∧
      (32, 4) ∈ adjust_pixels_order 33 5 ∧
      applies_adjust 26 = false := by
  have hc := C5_adjust_pixels 33 5
  exact ⟨hc.2.1, hc.2.2.2.1 32 4 (by decide) (by decide),
    hc.2.2.2.2.2.2 26 (by decide) (by decide)⟩

/-! ### Sprite file names — src/src/extractors/sc.rs, write_shape -/

/-- Models `(shape_count as f64).log10().round() as usize` (sc.rs line
504).  For n < 2^16 the f64 computation is exact enough that the
rounded value is k exactly when 10^(k - 1/2) ≤ n < 10^(k + 1/2); the
integer thresholds below are the ceilings of those irrational bounds,
which f64 evaluation cannot cross for inputs this small.  For n = 0
the Rust expression is (-inf).round() cast to usize, which saturates
to 0, matching the first branch. -/
def log10_round (n : Nat) : Nat :=
  if n < 4 then 0
  else if n < 32 then 1
  else if n < 317 then 2
  else if n < 3163 then 3
  else if n < 31623 then 4
  else 5

/-- Models max_range (sc.rs line 504), the zero-pad width used in
sprite file names. -/
def max_range (shape_count : Nat) : Nat := log10_round shape_count + 1

/-- Number of decimal digits the claim expects:
floor(log10 shape_count) + 1. -/
def specDigits (n : Nat) : Nat := Nat.log 10 n + 1

/-- Models the left zero-padding of `\x7b:0>2$\x7d` in the format call
(sc.rs line 583). -/
def pad_zeros (w : Nat) (s : String) : String :=
  String.mk (List.replicate (w - s.length) '0') ++ s

/-- Models the sprite file name built at sc.rs line 583. -/
def sprite_file_name (file_name : String) (x width : Nat) : String :=
  file_name ++ "_sprite_" ++ pad_zeros width (Nat.repr x) ++ ".png"

/-- C6: the code pads sprite indices to round(log10(shape_count)) + 1
digits, not floor(log10(shape_count)) + 1.  At shape_count = 5 the code
pads to 2 digits and writes x_sprite_00.png, while the claim (and the
code's own comment, which says the value is the number of digits in
the number) expects 1 digit and x_sprite_0.png; at shape_count = 100
both agree on 3. -/
theorem C6_max_range_eval :
    max_range 5 = 2 ∧ specDigits 5 = 1 ∧
      sprite_file_name "x" 0 (max_range 5) = "x_sprite_00.png" ∧
      sprite_file_name "x" 0 (specDigits 5) = "x_sprite_0.png" ∧
      max_range 100 = 3 ∧ specDigits 100 = 3 := by
  have h5 : Nat.log 10 5 = 0 := Nat.log_eq_of_pow_le_of_lt_pow (by norm_num) (by norm_num)
  have h100 : Nat.log 10 100 = 2 := Nat.log_eq_of_pow_le_of_lt_pow (by norm_num) (by norm_num)
  refine ⟨rfl, ?_, rfl, ?_, rfl, ?_⟩
  · unfold specDigits; rw [h5]
  · unfold specDigits; rw [h5]; rfl
  · unfold specDigits; rw [h100]

/-! ### Low-resolution flag and divider — src/src/extractors/sc.rs,
process_sc tagged-block loop -/

/-- Block events of the tagged-block loop (sc.rs lines 222-348) that
interact with the use_low_res flag: a texture descriptor (tag 0x01 or
0x18) carrying the loaded PNG dimensions (imgW, imgH) and the declared
u16 dimensions (declW, declH); a sprite block (tag 0x12); anything
else. -/
inductive ScBlock where
  | tex (imgW imgH declW declH : Nat)
  | sprite
  | other
deriving Repr, DecidableEq

/-- Models the flag and divider behavior of the tagged-block loop: a
texture descriptor sets use_low_res when the loaded PNG's width AND
height both differ from the declared values (sc.rs lines 234-238); a
sprite block chooses its divider `i` from the flag's value at the
moment it is parsed (line 244); other tags leave the flag unchanged.
Returns the final flag and the divider chosen for each sprite block,
in file order. -/
def sc_low_res : Bool → List ScBlock → Bool × List Nat
  | flag, [] => (flag, [])
  | flag, .tex iw ih dw dh :: rest =>
      sc_low_res (if iw ≠ dw ∧ ih ≠ dh then true else flag) rest
  | flag, .sprite :: rest =>
      let r := sc_low_res flag rest
      (r.1, (if flag then 2 else 1) :: r.2)
  | flag, .other :: rest => sc_low_res flag rest

/-- Final value of the file-wide use_low_res flag (starts false,
sc.rs line 165). -/
def use_low_res (blocks : List ScBlock) : Bool := (sc_low_res false blocks).1

/-- Divider chosen for each 0x12 sprite block, in order. -/
def sprite_dividers (blocks : List ScBlock) : List Nat := (sc_low_res false blocks).2

/-- A texture descriptor whose declared width and height BOTH differ
from the loaded PNG's. -/
def isTrigger : ScBlock → Bool
  | .tex iw ih dw dh => decide (iw ≠ dw ∧ ih ≠ dh)
  | _ => false

theorem sc_low_res_fst (bs : List ScBlock) :
    ∀ flag, (sc_low_res flag bs).1 = (flag || bs.any isTrigger) := by
  induction bs with
  | nil => intro flag; simp [sc_low_res]
  | cons b t ih =>
      intro flag
      cases b with
      | tex iw ihh dw dh =>
          show (sc_low_res (if iw ≠ dw ∧ ihh ≠ dh then true else flag) t).1 = _
          rw [ih]
          by_cases hc : iw ≠ dw ∧ ihh ≠ dh
          · simp [hc, isTrigger]
          · simp [hc, isTrigger]
      | sprite => simp [sc_low_res, ih, isTrigger]
      | other => simp [sc_low_res, ih, isTrigger]

theorem sc_low_res_append (bs1 bs2 : List ScBlock) :
    ∀ flag, sc_low_res flag (bs1 ++ bs2) =
      ((sc_low_res (sc_low_res flag bs1).1 bs2).1,
        (sc_low_res flag bs1).2 ++ (sc_low_res (sc_low_res flag bs1).1 bs2).2) := by
  induction bs1 with
  | nil => intro flag; simp [sc_low_res]
  | cons b t ih =>
      intro flag
      cases b with
      | tex iw ihh dw dh => simp [sc_low_res, ih]
      | sprite => simp [sc_low_res, ih]
      | other => simp [sc_low_res, ih]

/-- C7 counterexample: when a 0x12 sprite block precedes the texture
descriptor that triggers low-res mode, the final use_low_res flag is
true yet that sprite block was parsed with divider 1, so divider 2 is
not applied to every region in the file. -/
theorem C7_counterexample :
    use_low_res [ScBlock.sprite, ScBlock.tex 1 1 2 2] = true ∧
      sprite_dividers [ScBlock.sprite, ScBlock.tex 1 1 2 2] = [1] := by decide

/-- C7 (amended): the file-wide use_low_res flag ends true iff some
texture-descriptor block declares a width and a height that BOTH
differ from the loaded sheet PNG's (when exactly one dimension
differs, low-res mode is not triggered); and the divider applied to a
sprite block's regions is 2 exactly when a triggering texture block
precedes that sprite block, because the flag is consulted when the
0x12 block is parsed, not at the end of the file. -/
theorem C7_use_low_res (bs pre post : List ScBlock) :
    (use_low_res bs = true ↔
      ∃ iw ih dw dh, ScBlock.tex iw ih dw dh ∈ bs ∧ iw ≠ dw ∧ ih ≠ dh) ∧
      (bs = pre ++ ScBlock.sprite :: post →
        sprite_dividers bs =
          sprite_dividers pre ++
            (if use_low_res pre = true then 2 else 1) ::
              (sc_low_res (use_low_res pre) post).2) := by
  constructor
  · rw [use_low_res, sc_low_res_fst]
    simp only [Bool.false_or, List.any_eq_true]
    constructor
    · rintro ⟨b, hb, htr⟩
      cases b with
      | tex iw ihh dw dh =>
          refine ⟨iw, ihh, dw, dh, hb, ?_⟩
          simpa [isTrigger] using htr
      | sprite => simp [isTrigger] at htr
      | other => simp [isTrigger] at htr
    · rintro ⟨iw, ihh, dw, dh, hmem, h1, h2⟩
      exact ⟨_, hmem, by simp [isTrigger, h1, h2]⟩
  · rintro rfl
    show (sc_low_res false (pre ++ ScBlock.sprite :: post)).2 = _
    rw [sc_low_res_append]
    show _ ++ (sc_low_res (sc_low_res false pre).1 (ScBlock.sprite :: post)).2 = _
    simp [sc_low_res, use_low_res, sprite_dividers]

/-- Witness for C7_use_low_res: a triggering texture block followed by
a sprite block gives flag true and divider 2 for that sprite. -/
theorem C7_use_low_res_witness :
    use_low_res [ScBlock.tex 1 1 2 2, ScBlock.sprite] = true ∧
      sprite_dividers [ScBlock.tex 1 1 2 2, ScBlock.sprite] = [2] := by
  have h := C7_use_low_res [ScBlock.tex 1 1 2 2, ScBlock.sprite] [ScBlock.tex 1 1 2 2] []
  refine ⟨h.1.mpr ⟨1, 1, 2, 2, by decide, by decide, by decide⟩, ?_⟩
  rw [h.2 rfl]
  decide

/-! ### Decompression entry points — src/src/utils.rs decompress,
src/src/extractors/tex.rs process_tex, src/src/extractors/csv.rs
process_csv -/

/-- Models the header fix-up stage of decompress (utils.rs line 126):
`[&raw_data[0..9], &[0; 4], &raw_data[9..]].concat()`.  The slice
`raw_data[0..9]` panics when the input is shorter than 9 bytes,
modelled as `none`; the LZMA call that follows is outside the model. -/
def decompress_fixup (raw : List Nat) : Option (List Nat) :=
  if 9 ≤ raw.length then some (raw.take 9 ++ [0, 0, 0, 0] ++ raw.drop 9) else none

/-- Outcome of the first stage of a decompressing entry point: an
early error return, a panic in the decompress slicing, or an actual
LZMA decompression attempt on the fixed-up buffer. -/
inductive DecompressAttempt where
  | err (e : Error)
  | panicSlice
  | lzma (input : List Nat)
deriving Repr, DecidableEq

/-- Models process_tex up to the decompression attempt (tex.rs lines
133-139): inputs shorter than 35 bytes return DecompressionError at
the size guard, before decompressing anything or writing any output;
otherwise the first 26 bytes are skipped and the remainder goes
through the decompress header fix-up. -/
def process_tex_start (data : List Nat) : DecompressAttempt :=
  if data.length < 35 then .err .DecompressionError
  else
    match decompress_fixup (data.drop 26) with
    | some buf => .lzma buf
    | none => .panicSlice

/-- Models process_csv up to the decompression attempt (csv.rs lines
19-23): the raw file bytes are passed straight to decompress, with no
length guard. -/
def process_csv_start (data : List Nat) : DecompressAttempt :=
  match decompress_fixup data with
  | some buf => .lzma buf
  | none => .panicSlice

/-- C8: every input to process_tex shorter than 35 bytes returns
DecompressionError from the size guard, without attempting
decompression (no lzma outcome) or producing any output file (the
function returns before the extraction loop). -/
theorem C8_short_input (data : List Nat) (h : data.length < 35) :
    process_tex_start data = .err .DecompressionError := by
  unfold process_tex_start
  rw [if_pos h]

/-- Witness for C8_short_input on a 34-byte input. -/
theorem C8_short_input_witness :
    process_tex_start (List.replicate 34 0) = .err .DecompressionError :=
  C8_short_input (List.replicate 34 0) (by decide)

/-- C9: decompress requires at least 9 input bytes — anything shorter
panics on the `raw_data[0..9]` slice (modelled `none`/panicSlice)
instead of returning DecompressionError; process_csv passes the raw
file bytes straight through and hits the same panic; process_tex is
unaffected because its 35-byte guard leaves `data[26..]` with at least
9 bytes, so its decompression attempt is always reached. -/
theorem C9_decompress_precondition (raw data big : List Nat)
    (h9 : raw.length < 9) (hcsv : data.length < 9) (h35 : 35 ≤ big.length) :
    decompress_fixup raw = none ∧
      process_csv_start data = .panicSlice ∧
      ∃ buf, process_tex_start big = .lzma buf := by
  refine ⟨?_, ?_, ?_⟩
  · unfold decompress_fixup
    rw [if_neg (by omega)]
  · have hn : ¬ 9 ≤ data.length := by omega
    simp [process_csv_start, decompress_fixup, hn]
  · have h1 : ¬ big.length < 35 := by omega
    have h2 : 9 ≤ big.length - 26 := by omega
    refine ⟨(big.drop 26).take 9 ++ [0, 0, 0, 0] ++ (big.drop 26).drop 9, ?_⟩
    simp [process_tex_start, decompress_fixup, h1, h2]

/-- Witness for C9_decompress_precondition at concrete inputs: a
2-byte buffer for decompress, an empty CSV, and a 35-byte TEX input. -/
theorem C9_decompress_precondition_witness :
    decompress_fixup [1, 2] = none ∧
      process_csv_start [] = .panicSlice ∧
      ∃ buf, process_tex_start (List.replicate 35 7) = .lzma buf :=
  C9_decompress_precondition [1, 2] [] (List.replicate 35 7)
    (by decide) (by decide) (by decide)

/-! ### Global zero point — src/src/extractors/sc.rs, write_shape -/

/-- Zero-point data of one processed region.  The values themselves
are computed with f64 arithmetic earlier in the same loop (sc.rs lines
451-461); the invariant below holds for every possible assignment, so
they are inputs of the model. -/
structure GeomRegion where
  region_zero_x : Nat
  region_zero_y : Nat
deriving Repr, DecidableEq

/-- Models the max_left/max_above tracking of write_shape (sc.rs lines
468-477) over the flattened list of all processed regions (each sprite
taken in order, each of its regions in order): both maxima start at 0
and are updated with an if-greater test per region; afterwards
global_zero_x = max_left and global_zero_y = max_above (lines
500-501). -/
def write_shape_globals (regions : List GeomRegion) : Nat × Nat :=
  regions.foldl
    (fun m r =>
      ((if r.region_zero_x > m.1 then r.region_zero_x else m.1),
        (if r.region_zero_y > m.2 then r.region_zero_y else m.2)))
    (0, 0)

theorem write_shape_globals_eq (regions : List GeomRegion) :
    ∀ init : Nat × Nat,
      regions.foldl
        (fun m r =>
          ((if r.region_zero_x > m.1 then r.region_zero_x else m.1),
            (if r.region_zero_y > m.2 then r.region_zero_y else m.2))) init =
        ((regions.map GeomRegion.region_zero_x).foldl max init.1,
          (regions.map GeomRegion.region_zero_y).foldl max init.2) := by
  induction regions with
  | nil => intro init; rfl
  | cons r t ih =>
      intro init
      simp only [List.foldl_cons, List.map_cons]
      rw [ih]
      have h1 : (if r.region_zero_x > init.1 then r.region_zero_x else init.1) =
          max init.1 r.region_zero_x := by split <;> omega
      have h2 : (if r.region_zero_y > init.2 then r.region_zero_y else init.2) =
          max init.2 r.region_zero_y := by split <;> omega
      rw [h1, h2]

theorem init_le_foldl_max (l : List Nat) : ∀ b, b ≤ l.foldl max b := by
  induction l with
  | nil => intro b; simp
  | cons x t ih =>
      intro b
      exact le_trans (le_max_left b x) (ih (max b x))

theorem mem_le_foldl_max (l : List Nat) : ∀ b a, a ∈ l → a ≤ l.foldl max b := by
  induction l with
  | nil => intro _ _ h; cases h
  | cons x t ih =>
      intro b a h
      rcases List.mem_cons.mp h with rfl | h2
      · exact le_trans (le_max_right b a) (init_le_foldl_max t (max b a))
      · exact ih (max b x) a h2

/-- C10: after the geometry pass, global_zero_x and global_zero_y
equal the running maxima of region_zero_x and region_zero_y over all
processed regions, so for every region the unsigned paste offsets
global_zero_x − region_zero_x and global_zero_y − region_zero_y
(sc.rs lines 565-568) subtract a value that never exceeds the
minuend, hence never underflow. -/
theorem C10_global_zero (regions : List GeomRegion) :
    (write_shape_globals regions).1 =
        (regions.map GeomRegion.region_zero_x).foldl max 0 ∧
      (write_shape_globals regions).2 =
        (regions.map GeomRegion.region_zero_y).foldl max 0 ∧
      ∀ r ∈ regions,
        r.region_zero_x ≤ (write_shape_globals regions).1 ∧
          r.region_zero_y ≤ (write_shape_globals regions).2 := by
  have heq := write_shape_globals_eq regions (0, 0)
  refine ⟨by rw [write_shape_globals, heq], by rw [write_shape_globals, heq], ?_⟩
  intro r hr
  rw [write_shape_globals, heq]
  exact ⟨mem_le_foldl_max _ 0 _ (List.mem_map_of_mem _ hr),
    mem_le_foldl_max _ 0 _ (List.mem_map_of_mem _ hr)⟩

/-- Witness for C10_global_zero on two concrete regions. -/
theorem C10_global_zero_witness :
    (write_shape_globals [⟨3, 4⟩, ⟨7, 1⟩]).1 = 7 ∧
      3 ≤ (write_shape_globals [⟨3, 4⟩, ⟨7, 1⟩]).1 ∧
      4 ≤ (write_shape_globals [⟨3, 4⟩, ⟨7, 1⟩]).2 := by
  have h := C10_global_zero [⟨3, 4⟩, ⟨7, 1⟩]
  have hm := h.2.2 ⟨3, 4⟩ (by decide)
  exact ⟨by decide, hm.1, hm.2⟩

end ScExtract
